import Mathlib

/-!
# Verification of the Girok diary server

Shallow embedding of the data layer and route handlers of the Girok
social-diary backend (`src/server.js` and the near-duplicate variant
`src/unnamed/part_000`), together with proofs of its specified
properties.

Modelling conventions:
* Each Mongo collection is a Lean `List` of records kept in insertion
  order; the storage layer's insertion-ordered `_id` is modelled by a
  `Nat` drawn from a monotone counter `nextId` in the store.
* `findOne` is `List.find?`, `countDocuments` is `List.filter` + length,
  `deleteMany` is `List.filter`, `findByIdAndDelete`/`deleteOne` remove
  the first record with the given id, `updateOne`/`save` replace the
  first matching record in place, and `.sort` is `List.mergeSort`.
* Optional request fields are `Option String`; JavaScript truthiness of
  a string field (`!text`) treats both a missing field and the empty
  string as falsy.
-/

namespace Girok

/-- A document of the `User` collection (`userSchema` in server.js). -/
structure User where
  id : Nat
  username : String
  password : String
  display_name : String
  bio : String
  profile_img : Option String
  created_at : String
  ip_address : String
deriving Repr, DecidableEq

/-- A document of the `Question` collection. `text` is an optional schema
field: the part_000 reserve handler can create a question without it. -/
structure Question where
  id : Nat
  text : Option String
  date : String
deriving Repr, DecidableEq

/-- A document of the `Answer` collection. -/
structure Answer where
  id : Nat
  question_id : Nat
  user : String
  content : String
  date : String
deriving Repr, DecidableEq

/-- A document of the `Diary` collection. The privacy flag is an integer
(0 = public), as in `diarySchema`. -/
structure Diary where
  id : Nat
  user : String
  content : String
  image : Option String
  date : String
  mood : String
  is_private : Nat
deriving Repr, DecidableEq

/-- A document of the `Comment` collection. -/
structure Comment where
  id : Nat
  diary_id : Nat
  user : String
  content : String
  date : String
deriving Repr, DecidableEq

/-- A document of the `Like` collection (a pure join entity). -/
structure Like where
  id : Nat
  diary_id : Nat
  user : String
deriving Repr, DecidableEq

/-- The record store: one list per collection, in insertion order, plus
the monotone id counter modelling ObjectId generation. -/
structure Store where
  users : List User
  questions : List Question
  answers : List Answer
  diaries : List Diary
  comments : List Comment
  likes : List Like
  nextId : Nat
deriving Repr, DecidableEq

/-- `User.findOne({ username })`. -/
def findUser (s : Store) (username : String) : Option User :=
  s.users.find? (fun u => u.username == username)

/-! ## Identity service (`POST /register`, `POST /login`) -/

/-- Outcome of `POST /register`. -/
inductive RegisterResult
  | ok
  | duplicateIdentity
deriving Repr, DecidableEq

/-- `POST /register`: `User.create` succeeds unless the storage-level
unique index on `username` rejects the insert, in which case the handler
catches the error and reports the duplicate-identity failure. The new
user gets display name equal to the username, the fixed welcome bio,
no avatar, the supplied timestamp, and the caller's network address. -/
def register (s : Store) (username password ip now : String) :
    Store × RegisterResult :=
  if s.users.any (fun u => u.username == username) then
    (s, .duplicateIdentity)
  else
    ({ s with
        users := s.users ++
          [{ id := s.nextId, username := username, password := password,
             display_name := username, bio := "반가워요!",
             profile_img := none, created_at := now, ip_address := ip }],
        nextId := s.nextId + 1 },
     .ok)

/-- Outcome of `POST /login`. -/
inductive LoginResult
  | success (username : String)
  | unknownIdentity
  | invalidCredential
deriving Repr, DecidableEq

/-- `POST /login`: unknown username, then credential comparison against
the stored credential (plain string comparison in server.js; the bcrypt
variant differs only in how the comparison is computed), then success
with the canonical stored username. -/
def login (s : Store) (username password : String) : LoginResult :=
  match findUser s username with
  | none => .unknownIdentity
  | some u => if password != u.password then .invalidCredential
              else .success u.username

/-! ## Profile update (`POST /profile/update`) -/

/-- The update document `{ display_name, bio }`, extended with
`profile_img` exactly when a file was uploaded, applied to one user
document. -/
def profileTransform (display_name bio : String) (file : Option String)
    (u : User) : User :=
  { u with
      display_name := display_name
      bio := bio
      profile_img := match file with | some f => some f | none => u.profile_img }

/-- `User.updateOne({ username }, updateData)`: update the first document
matching the filter, leave everything else untouched. -/
def updateFirstUser : List User → String → (User → User) → List User
  | [], _, _ => []
  | u :: rest, username, f =>
    if u.username == username then f u :: rest
    else u :: updateFirstUser rest username f

/-- `POST /profile/update`. -/
def updateProfile (s : Store) (username display_name bio : String)
    (file : Option String) : Store :=
  { s with users :=
      updateFirstUser s.users username (profileTransform display_name bio file) }

/-! ## Feed assembler (`GET /diaries/:viewer`) -/

/-- The optional `mood` query filter: applied only when the value is
truthy and different from the sentinel `'all'`. -/
def moodMatches (mood : Option String) (d : Diary) : Bool :=
  match mood with
  | some m => if m != "" && m != "all" then d.mood == m else true
  | none => true

/-- The visibility part of the query: for any viewer other than the
literal `'admin'`, `$or: [{ is_private: 0 }, { user: viewer }]`. -/
def visibleTo (viewer : String) (d : Diary) : Bool :=
  if viewer != "admin" then d.is_private == 0 || d.user == viewer else true

/-- The complete `Diary.find(query)` predicate of the handler. -/
def diaryQuery (viewer : String) (mood : Option String) (d : Diary) : Bool :=
  moodMatches mood d && visibleTo viewer d

/-- `sortOption`: `{ _id: 1 }` when `sort === 'oldest'`, else the default
`{ _id: -1 }`. -/
def diarySortLe (sort : Option String) (a b : Diary) : Bool :=
  if sort == some "oldest" then a.id ≤ b.id else b.id ≤ a.id

/-- `Diary.find(query).sort(sortOption)`. -/
def selectDiaries (s : Store) (viewer : String) (mood sort : Option String) :
    List Diary :=
  List.mergeSort (s.diaries.filter (diaryQuery viewer mood)) (diarySortLe sort)

/-- `Like.countDocuments({ diary_id })`. -/
def likeCount (s : Store) (diaryId : Nat) : Nat :=
  (s.likes.filter (fun l => l.diary_id == diaryId)).length

/-- `Like.exists({ diary_id, user })`, coerced with `!!`. -/
def likeExists (s : Store) (diaryId : Nat) (user : String) : Bool :=
  s.likes.any (fun l => l.diary_id == diaryId && l.user == user)

/-- A diary as returned by the feed: the stored document spread into the
response, plus the writer-profile, like-count and viewer-like-state
decoration fields. -/
structure DecoratedDiary where
  diary : Diary
  display_name : String
  profile_img : Option String
  like_count : Nat
  is_liked : Bool
deriving Repr, DecidableEq

/-- The per-diary decoration step of the handler's `Promise.all` loop:
writer display name and avatar with the "알 수 없음" / null fallback when
the writer record is missing, the diary's like count, and whether the
viewer has liked it. -/
def decorateDiary (s : Store) (viewer : String) (d : Diary) : DecoratedDiary :=
  { diary := d
    display_name := match findUser s d.user with
                    | some w => w.display_name
                    | none => "알 수 없음"
    profile_img := match findUser s d.user with
                   | some w => w.profile_img
                   | none => none
    like_count := likeCount s d.id
    is_liked := likeExists s d.id viewer }

/-- `GET /diaries/:viewer`: select, sort, decorate. -/
def listDiaries (s : Store) (viewer : String) (mood sort : Option String) :
    List DecoratedDiary :=
  (selectDiaries s viewer mood sort).map (decorateDiary s viewer)

/-! ## Engagement service (`POST /diary/like`, `DELETE /diary/:id`,
`GET /comments/:diary_id`) -/

/-- `Like.findOne({ diary_id, user })`. -/
def findLike (s : Store) (diaryId : Nat) (user : String) : Option Like :=
  s.likes.find? (fun l => l.diary_id == diaryId && l.user == user)

/-- `Like.deleteOne({ _id })`: remove the first document with that id. -/
def deleteOneLikeById : List Like → Nat → List Like
  | [], _ => []
  | l :: rest, i => if l.id == i then rest else l :: deleteOneLikeById rest i

/-- `POST /diary/like`: check-then-act toggle. If a like for
(diary, user) exists, delete it by id and report `liked: false`;
otherwise create one and report `liked: true`. -/
def toggleLike (s : Store) (diaryId : Nat) (user : String) : Store × Bool :=
  match findLike s diaryId user with
  | some l => ({ s with likes := deleteOneLikeById s.likes l.id }, false)
  | none =>
    ({ s with
        likes := s.likes ++ [{ id := s.nextId, diary_id := diaryId, user := user }]
        nextId := s.nextId + 1 },
     true)

/-- `Diary.findByIdAndDelete`: remove the first document with that id. -/
def deleteOneDiaryById : List Diary → Nat → List Diary
  | [], _ => []
  | d :: rest, i => if d.id == i then rest else d :: deleteOneDiaryById rest i

/-- `DELETE /diary/:id`: delete the diary, then `Comment.deleteMany` and
`Like.deleteMany` on its id. -/
def deleteDiary (s : Store) (diaryId : Nat) : Store :=
  { s with
      diaries := deleteOneDiaryById s.diaries diaryId
      comments := s.comments.filter (fun c => !(c.diary_id == diaryId))
      likes := s.likes.filter (fun l => !(l.diary_id == diaryId)) }

/-- A comment as returned by `GET /comments/:diary_id`: the stored
document plus writer decoration. -/
structure DecoratedComment where
  comment : Comment
  display_name : String
  profile_img : Option String
deriving Repr, DecidableEq

/-- The per-comment writer decoration, with the same missing-writer
fallback as the feed. -/
def decorateComment (s : Store) (c : Comment) : DecoratedComment :=
  { comment := c
    display_name := match findUser s c.user with
                    | some w => w.display_name
                    | none => "알 수 없음"
    profile_img := match findUser s c.user with
                   | some w => w.profile_img
                   | none => none }

/-- `GET /comments/:diary_id`: `Comment.find({ diary_id }).sort({ _id: 1 })`
then writer decoration. -/
def listComments (s : Store) (diaryId : Nat) : List DecoratedComment :=
  (List.mergeSort (s.comments.filter (fun c => c.diary_id == diaryId))
      (fun a b => a.id ≤ b.id)).map (decorateComment s)

/-! ## Daily question service (`POST /answer`) -/

/-- `Answer.findOne({ question_id, user })`. -/
def findAnswer (s : Store) (questionId : Nat) (user : String) : Option Answer :=
  s.answers.find? (fun a => a.question_id == questionId && a.user == user)

/-- `exists.content = content; exists.date = ...; exists.save()`: replace
the first matching answer document in place. -/
def updateFirstAnswer : List Answer → Nat → String → String → String → List Answer
  | [], _, _, _, _ => []
  | a :: rest, q, u, c, dt =>
    if a.question_id == q && a.user == u then
      { a with content := c, date := dt } :: rest
    else a :: updateFirstAnswer rest q u c dt

/-- `POST /answer`: upsert keyed on (question, user) — update the first
existing match in place, or create a new answer. -/
def submitAnswer (s : Store) (questionId : Nat) (user content now : String) :
    Store :=
  match findAnswer s questionId user with
  | some _ =>
    { s with answers := updateFirstAnswer s.answers questionId user content now }
  | none =>
    { s with
        answers := s.answers ++
          [{ id := s.nextId, question_id := questionId, user := user,
             content := content, date := now }]
        nextId := s.nextId + 1 }

/-- The answers stored for one (question, user) pair. -/
def answersFor (s : Store) (questionId : Nat) (user : String) : List Answer :=
  s.answers.filter (fun a => a.question_id == questionId && a.user == user)

/-! ## Admin service (`GET /admin/user/:username`,
`POST /admin/questions/reserve`) -/

/-- `Diary.countDocuments({ user })`. -/
def diaryCountFor (s : Store) (username : String) : Nat :=
  (s.diaries.filter (fun d => d.user == username)).length

/-- `Answer.countDocuments({ user })`. -/
def answerCountFor (s : Store) (username : String) : Nat :=
  (s.answers.filter (fun a => a.user == username)).length

/-- The JSON object returned by the user-detail route. An `Option` field
set to `none` means the key is absent from the response. -/
structure UserDetailResponse where
  display_name : String
  bio : String
  profile_img : Option String
  password : Option String
  ip_address : Option String
  diary_count : Option Nat
  answer_count : Option Nat
deriving Repr, DecidableEq

/-- `GET /admin/user/:username` in `src/server.js`: the handler reads no
viewer identity at all (the `viewer` argument mirrors the caller's
claimed identity, which this variant ignores) and returns the full
record — stored credential, network address, and diary/answer counts —
to every caller. Returns `none` for the empty-object reply on a missing
user. -/
def userDetailA (s : Store) (username : String) (viewer : String) :
    Option UserDetailResponse :=
  match findUser s username with
  | none => none
  | some u =>
    some { display_name := u.display_name
           bio := u.bio
           profile_img := u.profile_img
           password := some u.password
           ip_address := some u.ip_address
           diary_count := some (diaryCountFor s u.username)
           answer_count := some (answerCountFor s u.username) }

/-- `GET /admin/user/:username?viewer=...` in `src/unnamed/part_000`:
the full record — with the credential reported as the literal
placeholder `"Encrypted"`, the network address, and diary/answer
counts — only when the claimed viewer is the admin sentinel; otherwise
only display name, bio and avatar. -/
def userDetailB (s : Store) (username : String) (viewer : Option String) :
    Option UserDetailResponse :=
  match findUser s username with
  | none => none
  | some u =>
    if viewer == some "admin" then
      some { display_name := u.display_name
             bio := u.bio
             profile_img := u.profile_img
             password := some "Encrypted"
             ip_address := some u.ip_address
             diary_count := some (diaryCountFor s u.username)
             answer_count := some (answerCountFor s u.username) }
    else
      some { display_name := u.display_name
             bio := u.bio
             profile_img := u.profile_img
             password := none
             ip_address := none
             diary_count := none
             answer_count := none }

/-- Outcome of `POST /admin/questions/reserve`. `typeError` is the
uncaught runtime `TypeError` raised by `undefined.replace`. -/
inductive ReserveResult
  | ok
  | validationError
  | typeError
deriving Repr, DecidableEq

/-- the date-replace call of the handler: every dash of the date string replaced by
a dot-and-space, written character by character (the regex pattern is the
single character `-`). -/
def dashToDot : List Char → List Char
  | [] => []
  | c :: rest =>
    if c = '-' then '.' :: ' ' :: dashToDot rest else c :: dashToDot rest

/-- the date-replace call of the handler on strings. -/
def formatReserveDate (dt : String) : String :=
  ⟨dashToDot dt.data⟩

/-- `POST /admin/questions/reserve` in `src/server.js`:
`if (!text || !date)` fails with the validation error (a missing field
and the empty string are both falsy); otherwise create the question with
every dash of the date replaced by `". "`. -/
def reserveQuestionA (s : Store) (text date : Option String) :
    Store × ReserveResult :=
  match text, date with
  | some t, some dt =>
    if t == "" || dt == "" then (s, .validationError)
    else
      ({ s with
          questions := s.questions ++
            [{ id := s.nextId, text := some t, date := formatReserveDate dt }]
          nextId := s.nextId + 1 },
       .ok)
  | _, _ => (s, .validationError)

/-- `POST /admin/questions/reserve` in `src/unnamed/part_000`: no
validation at all. `req.body.date.replace` raises a `TypeError` when the
date is missing, before anything is created; when the date is present a
question is created even if `text` is missing. -/
def reserveQuestionB (s : Store) (text date : Option String) :
    Store × ReserveResult :=
  match date with
  | none => (s, .typeError)
  | some dt =>
    ({ s with
        questions := s.questions ++
          [{ id := s.nextId, text := text, date := formatReserveDate dt }]
        nextId := s.nextId + 1 },
     .ok)

/-! ## A small concrete store, used to instantiate the theorems -/

/-- A concrete populated store: two users, three diaries (one private),
one like, one comment, one answer. -/
def demoStore : Store :=
  { users :=
      [{ id := 0, username := "alice", password := "pw-alice",
         display_name := "Alice", bio := "hi", profile_img := some "imgA",
         created_at := "2025-01-01 10:00:00", ip_address := "1.2.3.4" },
       { id := 1, username := "bob", password := "pw-bob",
         display_name := "Bob", bio := "yo", profile_img := none,
         created_at := "2025-01-02 11:00:00", ip_address := "5.6.7.8" }]
    questions := [{ id := 2, text := some "question one", date := "2025. 01. 01" }]
    answers :=
      [{ id := 3, question_id := 2, user := "alice", content := "first",
         date := "2025. 01. 01" }]
    diaries :=
      [{ id := 4, user := "alice", content := "public alice", image := none,
         date := "2025. 01. 03", mood := "happy", is_private := 0 },
       { id := 5, user := "alice", content := "private alice", image := none,
         date := "2025. 01. 04", mood := "sad", is_private := 1 },
       { id := 6, user := "bob", content := "public bob", image := none,
         date := "2025. 01. 05", mood := "happy", is_private := 0 }]
    comments :=
      [{ id := 7, diary_id := 4, user := "bob", content := "nice",
         date := "2025. 01. 05" }]
    likes := [{ id := 8, diary_id := 4, user := "bob" }]
    nextId := 9 }

/-! ## Generic helper lemmas -/

/-- Splitting a list at the record returned by `find?`: everything before
the hit fails the predicate. -/
theorem find?_eq_some_split {α : Type} (p : α → Bool) (l : List α) (a : α)
    (h : l.find? p = some a) :
    ∃ l1 l2, l = l1 ++ a :: l2 ∧ ∀ x ∈ l1, p x = false := by
  induction l with
  | nil => simp at h
  | cons x rest ih =>
    by_cases hx : p x = true
    · rw [List.find?_cons_of_pos _ hx] at h
      cases h
      exact ⟨[], rest, rfl, by simp⟩
    · rw [List.find?_cons_of_neg _ (by simpa using hx)] at h
      rcases ih h with ⟨l1, l2, hsplit, hl1⟩
      refine ⟨x :: l1, l2, by rw [hsplit]; rfl, ?_⟩
      intro y hy
      rcases List.mem_cons.mp hy with rfl | hy'
      · simpa using hx
      · exact hl1 y hy'

/-! ## C6: registration and login -/

/-- **C6**: `register(username, secret)` fails with DuplicateIdentity exactly
when the username already exists, leaving the user store unchanged; `login`
fails with UnknownIdentity when no such user exists, fails with
InvalidCredential when the secret does not match the stored credential, and
otherwise succeeds returning the canonical stored username. -/
theorem c6_register_login (s : Store) (username secret password ip now : String) :
    ((register s username password ip now).2 = RegisterResult.duplicateIdentity ↔
      ∃ u ∈ s.users, u.username = username) ∧
    ((register s username password ip now).2 = RegisterResult.duplicateIdentity →
      (register s username password ip now).1 = s) ∧
    (login s username secret = LoginResult.unknownIdentity ↔
      ∀ u ∈ s.users, u.username ≠ username) ∧
    (∀ u, findUser s username = some u →
      (secret ≠ u.password → login s username secret = LoginResult.invalidCredential) ∧
      (secret = u.password → login s username secret = LoginResult.success u.username)) := by
  refine ⟨?_, ?_, ?_, ?_⟩
  · constructor
    · intro hdup
      by_cases h : s.users.any (fun u => u.username == username) = true
      · rcases List.any_eq_true.mp h with ⟨u, hu, he⟩
        exact ⟨u, hu, by simpa using he⟩
      · exfalso
        have hok : (register s username password ip now).2 = RegisterResult.ok := by
          simp [register, h]
        rw [hok] at hdup
        exact RegisterResult.noConfusion hdup
    · rintro ⟨u, hu, he⟩
      have h : s.users.any (fun u => u.username == username) = true :=
        List.any_eq_true.mpr ⟨u, hu, by simpa using he⟩
      simp [register, h]
  · intro hdup
    by_cases h : s.users.any (fun u => u.username == username) = true
    · simp [register, h]
    · exfalso
      have hok : (register s username password ip now).2 = RegisterResult.ok := by
        simp [register, h]
      rw [hok] at hdup
      exact RegisterResult.noConfusion hdup
  · cases hf : s.users.find? (fun u => u.username == username) with
    | none =>
      have hnone := List.find?_eq_none.mp hf
      constructor
      · intro _ u hu
        simpa using hnone u hu
      · intro _
        simp [login, findUser, hf]
    | some v =>
      have hv : v.username = username := by
        have := List.find?_some hf
        simpa using this
      have hmem := List.mem_of_find?_eq_some hf
      constructor
      · intro hlog
        exfalso
        have hne : login s username secret ≠ LoginResult.unknownIdentity := by
          by_cases hs : secret = v.password <;>
            simp [login, findUser, hf, hs]
        exact hne hlog
      · intro hall
        exact absurd hv (hall v hmem)
  · intro u hu
    constructor
    · intro hne
      simp [login, hu, hne]
    · intro heq
      simp [login, hu, heq]

/-- C6 witness: on the demo store, logging in as alice with the stored
credential succeeds and returns the canonical username. -/
theorem c6_register_login_witness :
    login demoStore "alice" "pw-alice" = LoginResult.success "alice" := by
  have h := (c6_register_login demoStore "alice" "pw-alice" "p" "ip" "t").2.2.2
  have h2 := h { id := 0, username := "alice", password := "pw-alice",
                 display_name := "Alice", bio := "hi", profile_img := some "imgA",
                 created_at := "2025-01-01 10:00:00", ip_address := "1.2.3.4" }
             (by decide)
  exact h2.2 rfl

/-! ## C10: profile update frame property -/

/-- A conditional user update maps to the identity on a list with no
matching username. -/
theorem map_cond_update_eq_self (rest : List User) (un : String) (f : User → User)
    (hnone : ∀ v ∈ rest, ¬(v.username = un)) :
    rest.map (fun u => if u.username = un then f u else u) = rest := by
  induction rest with
  | nil => rfl
  | cons w t iht =>
    have hw : ¬(w.username = un) := hnone w (by simp)
    simp only [List.map_cons, if_neg hw]
    rw [iht (fun v hv => hnone v (by simp [hv]))]

/-- With pairwise-distinct usernames (the storage uniqueness invariant),
updating the first matching user is the same as a pointwise conditional
update. -/
theorem updateFirstUser_eq_map (users : List User) (un : String) (f : User → User)
    (h : users.Pairwise (fun a b => a.username ≠ b.username)) :
    updateFirstUser users un f =
      users.map (fun u => if u.username = un then f u else u) := by
  induction users with
  | nil => rfl
  | cons u rest ih =>
    rcases List.pairwise_cons.mp h with ⟨hu, hrest⟩
    by_cases hc : u.username = un
    · have hnone : ∀ v ∈ rest, ¬(v.username = un) := by
        intro v hv he
        exact hu v hv (by rw [hc, he])
      have hmap := map_cond_update_eq_self rest un f hnone
      simp [updateFirstUser, hc, hmap]
    · simp only [updateFirstUser, beq_iff_eq, if_neg hc, List.map_cons]
      rw [ih hrest]

/-- **C10**: for a store whose usernames are pairwise distinct,
`updateProfile` overwrites exactly the display name and bio of the matching
user, replaces the avatar only when a new one is supplied, leaves the user's
other fields (`username`, `password`, `created_at`, `ip_address`, `id`)
untouched, leaves every other user untouched, and leaves every other
collection of the store untouched. -/
theorem c10_updateProfile_frame (s : Store) (un dn bo : String) (av : Option String)
    (h : s.users.Pairwise (fun a b => a.username ≠ b.username)) :
    (updateProfile s un dn bo av).users =
      s.users.map (fun u =>
        if u.username = un then
          { u with display_name := dn, bio := bo,
                   profile_img := if av.isSome then av else u.profile_img }
        else u) ∧
    (updateProfile s un dn bo av).diaries = s.diaries ∧
    (updateProfile s un dn bo av).comments = s.comments ∧
    (updateProfile s un dn bo av).likes = s.likes ∧
    (updateProfile s un dn bo av).answers = s.answers ∧
    (updateProfile s un dn bo av).questions = s.questions := by
  refine ⟨?_, rfl, rfl, rfl, rfl, rfl⟩
  show updateFirstUser s.users un (profileTransform dn bo av) = _
  rw [updateFirstUser_eq_map s.users un (profileTransform dn bo av) h]
  apply List.map_congr_left
  intro u _
  by_cases hc : u.username = un
  · cases av <;> simp [profileTransform, hc]
  · simp [hc]

/-- C10 witness: applying the theorem on the demo store shows the exact
post-state of alice's profile update. -/
theorem c10_updateProfile_frame_witness :
    demoStore.users.Pairwise (fun a b => a.username ≠ b.username) ∧
    (updateProfile demoStore "alice" "Alicia" "new bio" none).users =
      [{ id := 0, username := "alice", password := "pw-alice",
         display_name := "Alicia", bio := "new bio", profile_img := some "imgA",
         created_at := "2025-01-01 10:00:00", ip_address := "1.2.3.4" },
       { id := 1, username := "bob", password := "pw-bob",
         display_name := "Bob", bio := "yo", profile_img := none,
         created_at := "2025-01-02 11:00:00", ip_address := "5.6.7.8" }] := by
  constructor
  · decide
  · have h := (c10_updateProfile_frame demoStore "alice" "Alicia" "new bio" none
      (by decide)).1
    rw [h]
    decide

/-! ## C2: user detail redaction -/

/-- **C2 counterexample**: in the `src/server.js` variant the
`GET /admin/user/:username` handler never inspects the viewer identity, so a
non-admin viewer ("bob") receives alice's stored credential and network
address, contradicting the claim that a non-admin viewer receives neither. -/
theorem c2_userDetail_counterexample :
    ∃ r, userDetailA demoStore "alice" "bob" = some r ∧
      r.password ≠ none ∧ r.ip_address ≠ none := by
  refine ⟨{ display_name := "Alice", bio := "hi", profile_img := some "imgA",
            password := some "pw-alice", ip_address := some "1.2.3.4",
            diary_count := some 2, answer_count := some 1 },
          by decide, by decide, by decide⟩

/-- **C2 (amended)**: in the `src/unnamed/part_000` variant, user detail for
a non-admin viewer contains neither the credential field nor the network
address, while an admin viewer always receives both (the credential as the
fixed placeholder `"Encrypted"`) together with the derived diary and answer
counts; the `src/server.js` variant instead returns the stored credential,
the network address and the counts to every viewer. -/
theorem c2_userDetail_amended (s : Store) (username viewer : String) (u : User)
    (hu : findUser s username = some u) :
    (viewer ≠ "admin" →
      ∃ r, userDetailB s username (some viewer) = some r ∧
        r.password = none ∧ r.ip_address = none ∧
        r.diary_count = none ∧ r.answer_count = none) ∧
    (∃ r, userDetailB s username (some "admin") = some r ∧
      r.password = some "Encrypted" ∧ r.ip_address = some u.ip_address ∧
      r.diary_count = some (diaryCountFor s u.username) ∧
      r.answer_count = some (answerCountFor s u.username)) ∧
    (∃ r, userDetailA s username viewer = some r ∧
      r.password = some u.password ∧ r.ip_address = some u.ip_address ∧
      r.diary_count = some (diaryCountFor s u.username) ∧
      r.answer_count = some (answerCountFor s u.username)) := by
  refine ⟨?_, ?_, ?_⟩
  · intro hv
    refine ⟨{ display_name := u.display_name, bio := u.bio,
              profile_img := u.profile_img, password := none,
              ip_address := none, diary_count := none, answer_count := none },
            ?_, rfl, rfl, rfl, rfl⟩
    simp [userDetailB, hu, hv]
  · refine ⟨{ display_name := u.display_name, bio := u.bio,
              profile_img := u.profile_img, password := some "Encrypted",
              ip_address := some u.ip_address,
              diary_count := some (diaryCountFor s u.username),
              answer_count := some (answerCountFor s u.username) },
            ?_, rfl, rfl, rfl, rfl⟩
    simp [userDetailB, hu]
  · refine ⟨{ display_name := u.display_name, bio := u.bio,
              profile_img := u.profile_img, password := some u.password,
              ip_address := some u.ip_address,
              diary_count := some (diaryCountFor s u.username),
              answer_count := some (answerCountFor s u.username) },
            ?_, rfl, rfl, rfl, rfl⟩
    simp [userDetailA, hu]

/-- C2 witness: the amended theorem applied to alice on the demo store with
the non-admin viewer "bob". -/
theorem c2_userDetail_amended_witness :
    ∃ r, userDetailB demoStore "alice" (some "bob") = some r ∧
      r.password = none ∧ r.ip_address = none ∧
      r.diary_count = none ∧ r.answer_count = none := by
  have h := (c2_userDetail_amended demoStore "alice" "bob"
    { id := 0, username := "alice", password := "pw-alice",
      display_name := "Alice", bio := "hi", profile_img := some "imgA",
      created_at := "2025-01-01 10:00:00", ip_address := "1.2.3.4" }
    (by decide)).1
  exact h (by decide)

/-! ## C7: question reservation -/

/-- **C7 counterexample**: in the `src/unnamed/part_000` variant the reserve
handler performs no validation, so a request with no `text` (and the date
"2025-01-02") does not fail with a validation error and still creates a
question; this contradicts the claim that a missing `text` fails with a
ValidationError for every input. -/
theorem c7_reserveQuestion_counterexample :
    (reserveQuestionB demoStore none (some "2025-01-02")).2 = ReserveResult.ok ∧
    (reserveQuestionB demoStore none (some "2025-01-02")).1.questions.length =
      demoStore.questions.length + 1 := by
  constructor
  · rfl
  · rfl

/-- **C7 (amended)**: in `src/server.js`, `reserveQuestion` fails with a
ValidationError exactly when `text` or `date` is missing (or the empty
string, which JavaScript truthiness also rejects), leaves the store
unchanged on failure, and otherwise creates exactly one Question whose
stored date is the input date with every dash replaced by ". ". In the
`src/unnamed/part_000` variant there is no validation: whenever `date` is
present a Question is created even if `text` is missing, and a missing
`date` raises an uncaught TypeError before anything is created. -/
theorem c7_reserveQuestion_amended (s : Store) (text date : Option String) :
    ((reserveQuestionA s text date).2 = ReserveResult.validationError ↔
      (text = none ∨ text = some "" ∨ date = none ∨ date = some "")) ∧
    ((reserveQuestionA s text date).2 = ReserveResult.validationError →
      (reserveQuestionA s text date).1 = s) ∧
    (∀ t dt, text = some t → date = some dt → t ≠ "" → dt ≠ "" →
      (reserveQuestionA s text date).2 = ReserveResult.ok ∧
      (reserveQuestionA s text date).1.questions =
        s.questions ++ [{ id := s.nextId, text := some t,
                          date := formatReserveDate dt }]) ∧
    (∀ dt, date = some dt →
      (reserveQuestionB s text date).2 = ReserveResult.ok ∧
      (reserveQuestionB s text date).1.questions =
        s.questions ++ [{ id := s.nextId, text := text,
                          date := formatReserveDate dt }]) ∧
    (date = none →
      (reserveQuestionB s text date).2 = ReserveResult.typeError ∧
      (reserveQuestionB s text date).1 = s) := by
  refine ⟨?_, ?_, ?_, ?_, ?_⟩
  · cases text with
    | none => simp [reserveQuestionA]
    | some t =>
      cases date with
      | none => simp [reserveQuestionA]
      | some dt =>
        by_cases ht : t = ""
        · simp [reserveQuestionA, ht]
        · by_cases hdt : dt = ""
          · simp [reserveQuestionA, ht, hdt]
          · simp [reserveQuestionA, ht, hdt]
  · intro hval
    cases text with
    | none => simp [reserveQuestionA]
    | some t =>
      cases date with
      | none => simp [reserveQuestionA]
      | some dt =>
        by_cases ht : t = ""
        · simp [reserveQuestionA, ht]
        · by_cases hdt : dt = ""
          · simp [reserveQuestionA, ht, hdt]
          · exfalso
            have : (reserveQuestionA s (some t) (some dt)).2 = ReserveResult.ok := by
              simp [reserveQuestionA, ht, hdt]
            rw [this] at hval
            exact ReserveResult.noConfusion hval
  · rintro t dt rfl rfl ht hdt
    constructor
    · simp [reserveQuestionA, ht, hdt]
    · simp [reserveQuestionA, ht, hdt]
  · rintro dt rfl
    exact ⟨rfl, rfl⟩
  · rintro rfl
    exact ⟨rfl, rfl⟩

/-- C7 witness: the amended theorem applied on the demo store to a valid
reservation request. -/
theorem c7_reserveQuestion_amended_witness :
    (reserveQuestionA demoStore (some "new question") (some "2025-02-03")).2 =
      ReserveResult.ok ∧
    (reserveQuestionA demoStore (some "new question") (some "2025-02-03")).1.questions =
      demoStore.questions ++ [{ id := 9, text := some "new question",
                                date := "2025. 02. 03" }] := by
  have h := (c7_reserveQuestion_amended demoStore (some "new question")
    (some "2025-02-03")).2.2.1 "new question" "2025-02-03" rfl rfl
    (by decide) (by decide)
  refine ⟨h.1, ?_⟩
  rw [h.2]
  rfl

/-! ## C1: diary visibility -/

/-- The visibility query with no mood filter reduces to the three-way
disjunction of the specification. -/
theorem diaryQuery_none_iff (viewer : String) (d : Diary) :
    diaryQuery viewer none d = true ↔
      (d.is_private = 0 ∨ d.user = viewer ∨ viewer = "admin") := by
  by_cases h : viewer = "admin" <;>
    simp [diaryQuery, moodMatches, visibleTo, h]

/-- **C1**: for every diary D and viewer V, D appears in
`listDiaries(V)` with no mood filter (any sort option) iff D is public
(`is_private = 0`), or D's author is V, or V is the literal "admin". -/
theorem c1_listDiaries_visibility (s : Store) (viewer : String)
    (sort : Option String) (d : Diary) :
    (∃ r ∈ listDiaries s viewer none sort, r.diary = d) ↔
      (d ∈ s.diaries ∧
        (d.is_private = 0 ∨ d.user = viewer ∨ viewer = "admin")) := by
  have hmem : (∃ r ∈ listDiaries s viewer none sort, r.diary = d) ↔
      d ∈ selectDiaries s viewer none sort := by
    constructor
    · rintro ⟨r, hr, hrd⟩
      rcases List.mem_map.mp hr with ⟨x, hx, hxr⟩
      have hxd : x = d := by rw [← hrd, ← hxr]; rfl
      rwa [hxd] at hx
    · intro hd
      exact ⟨decorateDiary s viewer d, List.mem_map.mpr ⟨d, hd, rfl⟩, rfl⟩
  rw [hmem]
  unfold selectDiaries
  rw [List.mem_mergeSort, List.mem_filter]
  rw [diaryQuery_none_iff]

/-! ## C9: writer decoration, like counts and like state -/

/-- **C9**: every diary returned by the feed and every comment returned by
the comment list carries the writer's stored display name and avatar when
the writer's User record exists (`findUser` hits), and the fixed fallback
label "알 수 없음" with a null avatar when it does not (`findUser` misses,
i.e. no stored user has that username); every decorated diary additionally
carries the diary's total like count and whether the viewer has liked it. -/
theorem c9_decoration (s : Store) (viewer : String) (mood sort : Option String)
    (diaryId : Nat) :
    (∀ un : String, findUser s un = none ↔ ∀ u ∈ s.users, u.username ≠ un) ∧
    (∀ r ∈ listDiaries s viewer mood sort,
      (∀ w, findUser s r.diary.user = some w →
        r.display_name = w.display_name ∧ r.profile_img = w.profile_img) ∧
      (findUser s r.diary.user = none →
        r.display_name = "알 수 없음" ∧ r.profile_img = none) ∧
      r.like_count = likeCount s r.diary.id ∧
      r.is_liked = likeExists s r.diary.id viewer) ∧
    (∀ c ∈ listComments s diaryId,
      (∀ w, findUser s c.comment.user = some w →
        c.display_name = w.display_name ∧ c.profile_img = w.profile_img) ∧
      (findUser s c.comment.user = none →
        c.display_name = "알 수 없음" ∧ c.profile_img = none)) := by
  refine ⟨?_, ?_, ?_⟩
  · intro un
    constructor
    · intro hnone u hu he
      have := List.find?_eq_none.mp hnone u hu
      simp [he] at this
    · intro hall
      exact List.find?_eq_none.mpr (fun u hu => by simpa using hall u hu)
  · intro r hr
    rcases List.mem_map.mp hr with ⟨x, _, rfl⟩
    refine ⟨?_, ?_, rfl, rfl⟩
    · intro w hw
      have hw' : findUser s x.user = some w := hw
      constructor <;> simp [decorateDiary, hw']
    · intro hn
      have hn' : findUser s x.user = none := hn
      constructor <;> simp [decorateDiary, hn']
  · intro c hc
    rcases List.mem_map.mp hc with ⟨x, _, rfl⟩
    refine ⟨?_, ?_⟩
    · intro w hw
      have hw' : findUser s x.user = some w := hw
      constructor <;> simp [decorateComment, hw']
    · intro hn
      have hn' : findUser s x.user = none := hn
      constructor <;> simp [decorateComment, hn']

/-! ## C5: cascading diary deletion -/

/-- Membership after `findByIdAndDelete` on a collection with pairwise
distinct ids. -/
theorem mem_deleteOneDiaryById (l : List Diary) (i : Nat)
    (h : (l.map Diary.id).Nodup) (d : Diary) :
    d ∈ deleteOneDiaryById l i ↔ (d ∈ l ∧ d.id ≠ i) := by
  induction l with
  | nil => simp [deleteOneDiaryById]
  | cons x rest ih =>
    have h' : (x.id :: rest.map Diary.id).Nodup := by
      simpa using h
    have hx : x.id ∉ rest.map Diary.id := (List.nodup_cons.mp h').1
    have hrest : (rest.map Diary.id).Nodup := (List.nodup_cons.mp h').2
    by_cases hc : x.id = i
    · simp only [deleteOneDiaryById, hc, beq_self_eq_true, if_true]
      constructor
      · intro hd
        refine ⟨List.mem_cons_of_mem x hd, ?_⟩
        intro he
        exact hx (by
          rw [← hc] at he
          exact he ▸ List.mem_map_of_mem Diary.id hd)
      · rintro ⟨hd, hne⟩
        rcases List.mem_cons.mp hd with rfl | hd'
        · exact absurd hc hne
        · exact hd'
    · have hbeq : (x.id == i) = false := by simpa using hc
      simp only [deleteOneDiaryById, hbeq, Bool.false_eq_true, if_false]
      rw [List.mem_cons, ih hrest, List.mem_cons]
      constructor
      · rintro (rfl | ⟨hd, hne⟩)
        · exact ⟨Or.inl rfl, hc⟩
        · exact ⟨Or.inr hd, hne⟩
      · rintro ⟨rfl | hd, hne⟩
        · exact Or.inl rfl
        · exact Or.inr ⟨hd, hne⟩

/-- **C5**: after `deleteDiary(id)` no diary with that id remains, diaries
with other ids survive, zero comments and zero likes referencing the id
remain, comments and likes referencing other diaries are unchanged, and
the user, answer and question collections are untouched. -/
theorem c5_deleteDiary (s : Store) (i : Nat)
    (h : (s.diaries.map Diary.id).Nodup) :
    (∀ d, d ∈ (deleteDiary s i).diaries ↔ (d ∈ s.diaries ∧ d.id ≠ i)) ∧
    (∀ c, c ∈ (deleteDiary s i).comments ↔ (c ∈ s.comments ∧ c.diary_id ≠ i)) ∧
    (∀ l, l ∈ (deleteDiary s i).likes ↔ (l ∈ s.likes ∧ l.diary_id ≠ i)) ∧
    (deleteDiary s i).users = s.users ∧
    (deleteDiary s i).answers = s.answers ∧
    (deleteDiary s i).questions = s.questions := by
  refine ⟨?_, ?_, ?_, rfl, rfl, rfl⟩
  · intro d
    exact mem_deleteOneDiaryById s.diaries i h d
  · intro c
    show c ∈ s.comments.filter (fun c => !(c.diary_id == i)) ↔ _
    rw [List.mem_filter]
    simp
  · intro l
    show l ∈ s.likes.filter (fun l => !(l.diary_id == i)) ↔ _
    rw [List.mem_filter]
    simp

/-- C5 witness: deleting diary 4 of the demo store removes it together
with its comment and its like. -/
theorem c5_deleteDiary_witness :
    ((deleteDiary demoStore 4).diaries.map Diary.id = [5, 6]) ∧
    (deleteDiary demoStore 4).comments = [] ∧
    (deleteDiary demoStore 4).likes = [] := by
  have h := c5_deleteDiary demoStore 4 (by decide)
  refine ⟨by decide, ?_, ?_⟩
  · rcases hc : (deleteDiary demoStore 4).comments with _ | ⟨c, t⟩
    · rfl
    · exfalso
      have hmem : c ∈ (deleteDiary demoStore 4).comments := by
        rw [hc]; exact List.mem_cons_self c t
      have := (h.2.1 c).mp hmem
      have hd : c.diary_id = 4 := by
        have hin : c ∈ demoStore.comments := this.1
        have : c = { id := 7, diary_id := 4, user := "bob", content := "nice",
                     date := "2025. 01. 05" } := by
          simpa [demoStore] using hin
        rw [this]
      exact this.2 hd
  · rcases hl : (deleteDiary demoStore 4).likes with _ | ⟨l, t⟩
    · rfl
    · exfalso
      have hmem : l ∈ (deleteDiary demoStore 4).likes := by
        rw [hl]; exact List.mem_cons_self l t
      have := (h.2.2.1 l).mp hmem
      have hd : l.diary_id = 4 := by
        have hin : l ∈ demoStore.likes := this.1
        have : l = { id := 8, diary_id := 4, user := "bob" } := by
          simpa [demoStore] using hin
        rw [this]
      exact this.2 hd

/-! ## C3: like toggling -/

/-- `deleteOne` by id removes exactly the known occurrence when everything
before it has a different id. -/
theorem deleteOneLikeById_split (l1 l2 : List Like) (x : Like) (i : Nat)
    (hx : x.id = i) (h : ∀ y ∈ l1, y.id ≠ i) :
    deleteOneLikeById (l1 ++ x :: l2) i = l1 ++ l2 := by
  induction l1 with
  | nil => simp [deleteOneLikeById, hx]
  | cons y rest ih =>
    have hy : (y.id == i) = false := by simpa using h y (by simp)
    simp only [List.cons_append, deleteOneLikeById, hy, Bool.false_eq_true,
      if_false]
    show y :: deleteOneLikeById (rest ++ x :: l2) i = y :: (rest ++ l2)
    rw [ih (fun z hz => h z (by simp [hz]))]

/-- **C3**: `toggleLike` reports `liked: true` exactly when no like for the
(diary, user) pair existed, flips the pair's like-state, and two sequential
calls return both the like-state and the diary's like-count to their
original values. The hypotheses are the storage invariants: ids are
pairwise distinct, ids are below the id counter, and the unique compound
index admits at most one like per (diary, user) pair. -/
theorem c3_toggleLike_involution (s : Store) (d : Nat) (u : String)
    (hids : (s.likes.map Like.id).Nodup)
    (hfresh : ∀ l ∈ s.likes, l.id < s.nextId)
    (hpair : (s.likes.filter (fun l => l.diary_id == d && l.user == u)).length ≤ 1) :
    ((toggleLike s d u).2 = !(likeExists s d u)) ∧
    (likeExists (toggleLike s d u).1 d u = !(likeExists s d u)) ∧
    (likeExists (toggleLike (toggleLike s d u).1 d u).1 d u = likeExists s d u) ∧
    (likeCount (toggleLike (toggleLike s d u).1 d u).1 d = likeCount s d) := by
  cases hf : findLike s d u with
  | none =>
    have hnone : ∀ l ∈ s.likes, ¬((l.diary_id == d && l.user == u) = true) :=
      List.find?_eq_none.mp hf
    have hex : likeExists s d u = false :=
      List.any_eq_false.mpr hnone
    have hs1 : (toggleLike s d u).1 =
        { s with likes := s.likes ++ [{ id := s.nextId, diary_id := d, user := u }],
                 nextId := s.nextId + 1 } := by
      simp [toggleLike, hf]
    have ht1r : (toggleLike s d u).2 = true := by
      simp [toggleLike, hf]
    have hf2 : findLike { s with
        likes := s.likes ++ [{ id := s.nextId, diary_id := d, user := u }],
        nextId := s.nextId + 1 } d u =
        some { id := s.nextId, diary_id := d, user := u } := by
      show (s.likes ++ [({ id := s.nextId, diary_id := d, user := u } : Like)]).find?
        (fun l => l.diary_id == d && l.user == u) = _
      rw [List.find?_append]
      have h0 : s.likes.find? (fun l => l.diary_id == d && l.user == u) = none := hf
      rw [h0]
      simp
    have hdel : deleteOneLikeById
        (s.likes ++ [{ id := s.nextId, diary_id := d, user := u }]) s.nextId =
        s.likes := by
      have := deleteOneLikeById_split s.likes []
        ({ id := s.nextId, diary_id := d, user := u } : Like) s.nextId rfl
        (fun y hy => Nat.ne_of_lt (hfresh y hy))
      simpa using this
    have hs2likes : (toggleLike (toggleLike s d u).1 d u).1.likes = s.likes := by
      rw [hs1]
      simp only [toggleLike, hf2]
      exact hdel
    refine ⟨by rw [ht1r, hex]; rfl, ?_, ?_, ?_⟩
    · rw [hs1, hex]
      show (s.likes ++ [({ id := s.nextId, diary_id := d, user := u } : Like)]).any
        (fun l => l.diary_id == d && l.user == u) = true
      simp
    · show (toggleLike (toggleLike s d u).1 d u).1.likes.any _ = s.likes.any _
      rw [hs2likes]
    · show ((toggleLike (toggleLike s d u).1 d u).1.likes.filter _).length =
        (s.likes.filter _).length
      rw [hs2likes]
  | some lk =>
    have hf' : s.likes.find? (fun l => l.diary_id == d && l.user == u) = some lk := hf
    have hp : (lk.diary_id == d && lk.user == u) = true := by
      have := List.find?_some hf'
      simpa using this
    have hmem : lk ∈ s.likes := List.mem_of_find?_eq_some hf'
    have hex : likeExists s d u = true :=
      List.any_eq_true.mpr ⟨lk, hmem, hp⟩
    obtain ⟨l1, l2, hsplit, hl1⟩ :=
      find?_eq_some_split (fun l => l.diary_id == d && l.user == u) s.likes lk hf'
    have hids' : ((l1 ++ lk :: l2).map Like.id).Nodup := by
      rw [← hsplit]; exact hids
    have hl1id : ∀ y ∈ l1, y.id ≠ lk.id := by
      intro y hy he
      have hnd := List.nodup_append.mp (by
        simpa using hids' : (l1.map Like.id ++ (lk.id :: l2.map Like.id)).Nodup)
      exact hnd.2.2 (List.mem_map_of_mem Like.id hy) (by simp [he])
    have hdel1 : deleteOneLikeById s.likes lk.id = l1 ++ l2 := by
      rw [hsplit]
      exact deleteOneLikeById_split l1 l2 lk lk.id rfl hl1id
    have hs1 : (toggleLike s d u).1 = { s with likes := l1 ++ l2 } := by
      simp [toggleLike, hf, hdel1]
    have ht1r : (toggleLike s d u).2 = false := by
      simp [toggleLike, hf]
    have hfl1 : l1.filter (fun l => l.diary_id == d && l.user == u) = [] :=
      List.filter_eq_nil_iff.mpr (fun a ha => by simp [hl1 a ha])
    have hfl2 : l2.filter (fun l => l.diary_id == d && l.user == u) = [] := by
      have hflt := hpair
      rw [hsplit, List.filter_append, hfl1] at hflt
      simp only [List.filter_cons, hp, if_true, List.nil_append,
        List.length_cons] at hflt
      have hlen : (l2.filter (fun l => l.diary_id == d && l.user == u)).length = 0 := by
        omega
      exact List.eq_nil_of_length_eq_zero hlen
    have hmid : ∀ x ∈ l1 ++ l2, (x.diary_id == d && x.user == u) = false := by
      intro x hx
      rcases List.mem_append.mp hx with h1 | h2
      · exact hl1 x h1
      · have := List.filter_eq_nil_iff.mp hfl2 x h2
        simpa using this
    have hex1 : likeExists { s with likes := l1 ++ l2 } d u = false :=
      List.any_eq_false.mpr (fun x hx => by simp [hmid x hx])
    have hf2 : findLike { s with likes := l1 ++ l2 } d u = none :=
      List.find?_eq_none.mpr (fun x hx => by simp [hmid x hx])
    have hs2 : (toggleLike (toggleLike s d u).1 d u).1 =
        { s with likes := (l1 ++ l2) ++ [{ id := s.nextId, diary_id := d, user := u }],
                 nextId := s.nextId + 1 } := by
      rw [hs1]
      simp [toggleLike, hf2]
    have hp' : lk.diary_id = d ∧ lk.user = u := by simpa using hp
    have hqlk : (lk.diary_id == d) = true := by simp [hp'.1]
    refine ⟨by rw [ht1r, hex]; rfl, ?_, ?_, ?_⟩
    · rw [hs1, hex]
      simpa using hex1
    · rw [hs2, hex]
      show ((l1 ++ l2) ++ [({ id := s.nextId, diary_id := d, user := u } : Like)]).any
        (fun l => l.diary_id == d && l.user == u) = true
      simp
    · rw [hs2]
      show (((l1 ++ l2) ++ [({ id := s.nextId, diary_id := d, user := u } : Like)]).filter
        (fun l => l.diary_id == d)).length = (s.likes.filter (fun l => l.diary_id == d)).length
      rw [hsplit]
      simp only [List.filter_append, List.filter_cons, hqlk, if_true,
        beq_self_eq_true, List.filter_nil, List.length_append, List.length_cons,
        List.length_nil]
      omega

/-- C3 witness: toggling bob's like on diary 4 of the demo store twice
returns both the like-state and the like-count to their original values. -/
theorem c3_toggleLike_involution_witness :
    likeExists (toggleLike (toggleLike demoStore 4 "bob").1 4 "bob").1 4 "bob" =
      likeExists demoStore 4 "bob" ∧
    likeCount (toggleLike (toggleLike demoStore 4 "bob").1 4 "bob").1 4 =
      likeCount demoStore 4 :=
  ⟨(c3_toggleLike_involution demoStore 4 "bob"
      (by decide) (by decide) (by decide)).2.2.1,
   (c3_toggleLike_involution demoStore 4 "bob"
      (by decide) (by decide) (by decide)).2.2.2⟩

/-! ## C4: answer upsert -/

/-- In-place update at the split point of the first match. -/
theorem updateFirstAnswer_split (l1 l2 : List Answer) (a0 : Answer)
    (q : Nat) (u c dt : String)
    (h1 : ∀ x ∈ l1, (x.question_id == q && x.user == u) = false)
    (h2 : (a0.question_id == q && a0.user == u) = true) :
    updateFirstAnswer (l1 ++ a0 :: l2) q u c dt =
      l1 ++ { a0 with content := c, date := dt } :: l2 := by
  induction l1 with
  | nil => simp [updateFirstAnswer, h2]
  | cons y rest ih =>
    have hy := h1 y (by simp)
    simp only [List.cons_append, updateFirstAnswer, hy, Bool.false_eq_true,
      if_false]
    show y :: updateFirstAnswer (rest ++ a0 :: l2) q u c dt = _
    rw [ih (fun z hz => h1 z (by simp [hz]))]

/-- One `submitAnswer` call from a state respecting the at-most-one
invariant leaves exactly one answer for the pair, holding the submitted
content and date. -/
theorem submitAnswer_step (s : Store) (q : Nat) (u c dt : String)
    (h : (answersFor s q u).length ≤ 1) :
    ∃ a : Answer, answersFor (submitAnswer s q u c dt) q u = [a] ∧
      a.content = c ∧ a.date = dt := by
  cases hf : findAnswer s q u with
  | none =>
    have hf' : s.answers.find? (fun a => a.question_id == q && a.user == u) = none := hf
    have hnone := List.find?_eq_none.mp hf'
    have hfl : s.answers.filter (fun a => a.question_id == q && a.user == u) = [] :=
      List.filter_eq_nil_iff.mpr hnone
    refine ⟨{ id := s.nextId, question_id := q, user := u, content := c, date := dt },
      ?_, rfl, rfl⟩
    simp only [answersFor, submitAnswer, hf]
    rw [List.filter_append, hfl]
    simp
  | some a0 =>
    have hf' : s.answers.find? (fun a => a.question_id == q && a.user == u) = some a0 := hf
    have hp : (a0.question_id == q && a0.user == u) = true := by
      have := List.find?_some hf'
      simpa using this
    obtain ⟨l1, l2, hsplit, hl1⟩ :=
      find?_eq_some_split (fun a => a.question_id == q && a.user == u) s.answers a0 hf'
    have hfl1 : l1.filter (fun a => a.question_id == q && a.user == u) = [] :=
      List.filter_eq_nil_iff.mpr (fun x hx => by simp [hl1 x hx])
    have hfl2 : l2.filter (fun a => a.question_id == q && a.user == u) = [] := by
      have hflt := h
      unfold answersFor at hflt
      rw [hsplit, List.filter_append, hfl1] at hflt
      simp only [List.filter_cons, hp, if_true, List.nil_append,
        List.length_cons] at hflt
      have hlen : (l2.filter (fun a => a.question_id == q && a.user == u)).length = 0 := by
        omega
      exact List.eq_nil_of_length_eq_zero hlen
    refine ⟨{ a0 with content := c, date := dt }, ?_, rfl, rfl⟩
    simp only [answersFor, submitAnswer, hf]
    rw [hsplit, updateFirstAnswer_split l1 l2 a0 q u c dt hl1 hp,
      List.filter_append, hfl1]
    have hp2 : (({ a0 with content := c, date := dt } : Answer).question_id == q &&
        ({ a0 with content := c, date := dt } : Answer).user == u) = true := hp
    simp only [List.filter_cons, hp2, if_true, hfl2, List.nil_append]

/-- **C4**: for any serialized sequence of `submitAnswer` calls for one
(question, user) pair, starting from a state with at most one stored answer
for the pair (the invariant serialized operation preserves), exactly one
answer record for the pair remains and its stored content and date are
those of the last call; in particular repeating an identical call is
idempotent on the stored content. -/
theorem c4_submitAnswer_sequence (q : Nat) (u : String)
    (calls : List (String × String)) (s : Store) (cd : String × String)
    (hlast : calls.getLast? = some cd)
    (h : (answersFor s q u).length ≤ 1) :
    ∃ a : Answer,
      answersFor (calls.foldl (fun st p => submitAnswer st q u p.1 p.2) s) q u = [a] ∧
      a.content = cd.1 ∧ a.date = cd.2 := by
  induction calls generalizing s with
  | nil => simp at hlast
  | cons c0 rest ih =>
    cases rest with
    | nil =>
      have hcd : c0 = cd := by simpa using hlast
      subst hcd
      simpa using submitAnswer_step s q u c0.1 c0.2 h
    | cons c1 t =>
      have hlast' : (c1 :: t).getLast? = some cd := by
        simpa [List.getLast?_cons_cons] using hlast
      obtain ⟨a, ha, _, _⟩ := submitAnswer_step s q u c0.1 c0.2 h
      have hle : (answersFor (submitAnswer s q u c0.1 c0.2) q u).length ≤ 1 := by
        rw [ha]
        simp
      simpa using ih (submitAnswer s q u c0.1 c0.2) hlast' hle

/-- C4 witness: submitting twice for (question 2, alice) on the demo store
leaves exactly one stored answer holding the content of the last call. -/
theorem c4_submitAnswer_sequence_witness :
    ∃ a : Answer,
      answersFor ([("second", "d1"), ("third", "d2")].foldl
        (fun st p => submitAnswer st 2 "alice" p.1 p.2) demoStore) 2 "alice" = [a] ∧
      a.content = "third" ∧ a.date = "d2" :=
  c4_submitAnswer_sequence 2 "alice" [("second", "d1"), ("third", "d2")]
    demoStore ("third", "d2") (by decide) (by decide)

/-! ## C8: feed ordering -/

/-- Selected diaries keep pairwise-distinct ids. -/
theorem selectDiaries_ids_nodup (s : Store) (viewer : String)
    (mood sort : Option String) (h : (s.diaries.map Diary.id).Nodup) :
    ((selectDiaries s viewer mood sort).map Diary.id).Nodup := by
  have hsub : ((s.diaries.filter (diaryQuery viewer mood)).map Diary.id).Nodup :=
    List.Nodup.sublist (List.Sublist.map Diary.id (List.filter_sublist s.diaries)) h
  have hperm : ((selectDiaries s viewer mood sort).map Diary.id).Perm
      ((s.diaries.filter (diaryQuery viewer mood)).map Diary.id) :=
    (List.mergeSort_perm _ _).map Diary.id
  exact hperm.nodup_iff.mpr hsub

/-- The default sort yields strictly descending ids. -/
theorem selectDiaries_sorted_desc (s : Store) (viewer : String)
    (mood : Option String) (h : (s.diaries.map Diary.id).Nodup) :
    List.Pairwise (fun a b : Diary => b.id < a.id)
      (selectDiaries s viewer mood none) := by
  have htrans : ∀ a b c : Diary, diarySortLe none a b = true →
      diarySortLe none b c = true → diarySortLe none a c = true := by
    intro a b c hab hbc
    simp [diarySortLe] at hab hbc ⊢
    omega
  have htotal : ∀ a b : Diary,
      (diarySortLe none a b || diarySortLe none b a) = true := by
    intro a b
    simp [diarySortLe]
    omega
  have hsorted : List.Pairwise (fun a b => diarySortLe none a b = true)
      (selectDiaries s viewer mood none) :=
    List.sorted_mergeSort htrans htotal (s.diaries.filter (diaryQuery viewer mood))
  have hne : List.Pairwise (fun a b : Diary => a.id ≠ b.id)
      (selectDiaries s viewer mood none) :=
    List.pairwise_map.mp (selectDiaries_ids_nodup s viewer mood none h)
  refine (List.Pairwise.and hsorted hne).imp ?_
  rintro a b ⟨hab, hne'⟩
  have hle : b.id ≤ a.id := by simpa [diarySortLe] using hab
  omega

/-- The explicit `oldest` sort yields strictly ascending ids. -/
theorem selectDiaries_sorted_asc (s : Store) (viewer : String)
    (mood : Option String) (h : (s.diaries.map Diary.id).Nodup) :
    List.Pairwise (fun a b : Diary => a.id < b.id)
      (selectDiaries s viewer mood (some "oldest")) := by
  have htrans : ∀ a b c : Diary, diarySortLe (some "oldest") a b = true →
      diarySortLe (some "oldest") b c = true →
      diarySortLe (some "oldest") a c = true := by
    intro a b c hab hbc
    simp [diarySortLe] at hab hbc ⊢
    omega
  have htotal : ∀ a b : Diary,
      (diarySortLe (some "oldest") a b || diarySortLe (some "oldest") b a) = true := by
    intro a b
    simp [diarySortLe]
    omega
  have hsorted : List.Pairwise (fun a b => diarySortLe (some "oldest") a b = true)
      (selectDiaries s viewer mood (some "oldest")) :=
    List.sorted_mergeSort htrans htotal (s.diaries.filter (diaryQuery viewer mood))
  have hne : List.Pairwise (fun a b : Diary => a.id ≠ b.id)
      (selectDiaries s viewer mood (some "oldest")) :=
    List.pairwise_map.mp (selectDiaries_ids_nodup s viewer mood (some "oldest") h)
  refine (List.Pairwise.and hsorted hne).imp ?_
  rintro a b ⟨hab, hne'⟩
  have hle : a.id ≤ b.id := by simpa [diarySortLe] using hab
  omega

/-- The `oldest` selection is exactly the reverse of the default one. -/
theorem selectDiaries_oldest_eq_reverse (s : Store) (viewer : String)
    (mood : Option String) (h : (s.diaries.map Diary.id).Nodup) :
    selectDiaries s viewer mood (some "oldest") =
      (selectDiaries s viewer mood none).reverse := by
  haveI : IsAntisymm Diary (fun a b => a.id < b.id) :=
    ⟨fun a b h1 h2 => absurd h2 (by omega)⟩
  apply List.eq_of_perm_of_sorted (r := fun a b : Diary => a.id < b.id)
  · have p1 : (selectDiaries s viewer mood (some "oldest")).Perm
        (s.diaries.filter (diaryQuery viewer mood)) := List.mergeSort_perm _ _
    have p2 : (selectDiaries s viewer mood none).Perm
        (s.diaries.filter (diaryQuery viewer mood)) := List.mergeSort_perm _ _
    exact p1.trans (p2.symm.trans (List.reverse_perm _).symm)
  · exact selectDiaries_sorted_asc s viewer mood h
  · exact List.pairwise_reverse.mpr (selectDiaries_sorted_desc s viewer mood h)

/-- **C8**: with pairwise-distinct storage ids, the feed with no sort
option is ordered strictly newest-first by the insertion-ordered id, and
the feed with the explicit `oldest` sort option is exactly the reverse of
it. -/
theorem c8_listDiaries_ordering (s : Store) (viewer : String)
    (mood : Option String) (h : (s.diaries.map Diary.id).Nodup) :
    List.Pairwise (fun a b : DecoratedDiary => b.diary.id < a.diary.id)
      (listDiaries s viewer mood none) ∧
    listDiaries s viewer mood (some "oldest") =
      (listDiaries s viewer mood none).reverse := by
  constructor
  · unfold listDiaries
    exact List.pairwise_map.mpr (selectDiaries_sorted_desc s viewer mood h)
  · unfold listDiaries
    rw [selectDiaries_oldest_eq_reverse s viewer mood h, List.map_reverse]

/-- C8 witness: on the demo store viewed by bob, the oldest-first feed is
the reverse of the default feed. -/
theorem c8_listDiaries_ordering_witness :
    listDiaries demoStore "bob" none (some "oldest") =
      (listDiaries demoStore "bob" none none).reverse :=
  (c8_listDiaries_ordering demoStore "bob" none (by decide)).2

/-- C1 witness: alice's public diary appears in bob's feed on the demo
store. -/
theorem c1_listDiaries_visibility_witness :
    ∃ r ∈ listDiaries demoStore "bob" none none,
      r.diary = { id := 4, user := "alice", content := "public alice",
                  image := none, date := "2025. 01. 03", mood := "happy",
                  is_private := 0 } :=
  (c1_listDiaries_visibility demoStore "bob" none
    { id := 4, user := "alice", content := "public alice", image := none,
      date := "2025. 01. 03", mood := "happy", is_private := 0 }).mpr
    ⟨by decide, Or.inl rfl⟩

/-- C9 witness: in bob's feed on the demo store, the decoration of alice's
public diary carries alice's stored display name. -/
theorem c9_decoration_witness :
    (decorateDiary demoStore "bob"
      { id := 4, user := "alice", content := "public alice", image := none,
        date := "2025. 01. 03", mood := "happy",
        is_private := 0 }).display_name = "Alice" := by
  have hmem : ({ id := 4, user := "alice", content := "public alice",
                 image := none, date := "2025. 01. 03", mood := "happy",
                 is_private := 0 } : Diary) ∈
      selectDiaries demoStore "bob" none none :=
    List.mem_mergeSort.mpr (by decide)
  have h := (c9_decoration demoStore "bob" none none 4).2.1
    (decorateDiary demoStore "bob"
      { id := 4, user := "alice", content := "public alice", image := none,
        date := "2025. 01. 03", mood := "happy", is_private := 0 })
    (List.mem_map.mpr ⟨_, hmem, rfl⟩)
  exact (h.1 { id := 0, username := "alice", password := "pw-alice",
               display_name := "Alice", bio := "hi", profile_img := some "imgA",
               created_at := "2025-01-01 10:00:00", ip_address := "1.2.3.4" }
    (by decide)).1
